import Mathlib

/-!
Shallow embedding of the data-resolution/caching layer and display-state
coordinator of `src/js/script.js` (Pokémon Tracker).

Modelling conventions:
* The remote catalog (PokeAPI) is an oracle `World`, fixed for a run:
  `pokemon` models `GET POKEAPI_URL ++ key`, `listing` models the paged
  listing `GET POKEAPI_URL ++ "?limit=L&offset=O"` (`none` = the axios call
  rejected), `typeMembers` models `GET .../type/<t>` (`none` = rejected).
* JavaScript exceptions are explicit: values of `JsError`; a `try` block is a
  function into `Except JsError _`; the `catch` handler is applied to every
  `.error`.
* The global mutable state threaded through the functions is `FetchState`
  (the `pokemonCache` object plus a log `calls` of the keys of the remote
  single-entity requests actually issued, in order) and, for the UI,
  `AppState` (the two display surfaces and the search input).
* `await Promise.all(names.map(fetchPokemon))` is modelled by `batchFetch`,
  which resolves the items in list order under the single cooperative
  execution context; since `fetchPokemon` never rejects, `Promise.all` here
  waits for every element to settle.
-/

namespace PokemonApp

/-- `TOTAL_POKEMON` of script.js (line 23). -/
def TOTAL_POKEMON : Nat := 151

/-! ## Raw payload shape (the fields script.js reads) -/

structure StatName where
  name : String
deriving DecidableEq, Repr

/-- One element of `data.stats`: `{ stat: { name }, base_stat }`. -/
structure StatEntry where
  stat : StatName
  base_stat : Nat
deriving DecidableEq, Repr

structure Sprites where
  front_default : String
deriving DecidableEq, Repr

structure TypeName where
  name : String
deriving DecidableEq, Repr

/-- One element of `data.types`: `{ type: { name } }`. -/
structure TypeEntry where
  type : TypeName
deriving DecidableEq, Repr

/-- The raw entity record returned by the single-entity endpoint. -/
structure PokemonData where
  id : Nat
  name : String
  sprites : Sprites
  types : List TypeEntry
  stats : List StatEntry
deriving DecidableEq, Repr

/-! ## JavaScript errors and the remote oracle -/

/-- The error shapes distinguished by the `catch` block of `fetchPokemon`
(script.js lines 191-207): an axios error carrying a response status
(`error.response`), an axios error with a request but no response
(`error.request`), and any other thrown `Error` (in this code path, the
`TypeError` thrown by the `Pokemon` constructor when no "hp" stat exists). -/
inductive JsError where
  | httpStatus (status : Nat)
  | noResponse
  | typeError
deriving DecidableEq, Repr

/-- Outcome of one remote single-entity lookup. -/
inductive FetchOutcome where
  | success (data : PokemonData)
  | httpError (status : Nat)
  | noResponse
deriving DecidableEq, Repr

/-- One entry of `data.results` of the paged listing (only `name` is read). -/
structure NamedRef where
  name : String
deriving DecidableEq, Repr

/-- The remote catalog as a deterministic oracle. -/
structure World where
  pokemon : String → FetchOutcome
  listing : Nat → Nat → Option (List NamedRef)
  typeMembers : String → Option (List String)

/-! ## The Pokemon class -/

/-- The `Pokemon` class instance fields (script.js lines 103-128). -/
structure Pokemon where
  id : Nat
  name : String
  sprites : Sprites
  types : List TypeEntry
  stats : List StatEntry
  hp : Nat
deriving DecidableEq, Repr

/-- `data.stats.find(stat => stat.stat.name === 'hp')` (script.js line 127). -/
def hpStat (d : PokemonData) : Option StatEntry :=
  d.stats.find? (fun s => s.stat.name == "hp")

/-- The `Pokemon` constructor (script.js lines 103-128): copies the payload
fields and derives `hp` from the stat named "hp"; when no such stat exists,
`.find` yields `undefined` and reading `.base_stat` throws a `TypeError`. -/
def Pokemon.construct (d : PokemonData) : Except JsError Pokemon :=
  match hpStat d with
  | some s =>
    .ok { id := d.id, name := d.name, sprites := d.sprites,
          types := d.types, stats := d.stats, hp := s.base_stat }
  | none => .error .typeError

/-! ## The cache and fetchPokemon -/

/-- `pokemonCache` (script.js line 84), as a string-keyed association list;
insertion appends, lookup takes the first match. -/
abbrev Cache : Type := List (String × Pokemon)

/-- `pokemonCache[key]` read (truthy exactly when the slot holds a Pokemon). -/
def cacheLookup (c : Cache) (k : String) : Option Pokemon :=
  match List.find? (fun e => e.1 == k) c with
  | some e => some e.2
  | none => none

/-- `pokemonCache[key] = pokemon` write (a fresh slot is appended; in every
reachable state the key written is not yet present). -/
def cacheInsert (c : Cache) (k : String) (p : Pokemon) : Cache :=
  c ++ [(k, p)]

/-- The mutable state touched by `fetchPokemon`: the cache plus the ordered
log of keys for which a remote single-entity request was issued. -/
structure FetchState where
  cache : Cache
  calls : List String
deriving DecidableEq

/-- `String.prototype.toLowerCase` on the ASCII range, written directly on
the character list so that concrete instances reduce in the kernel. -/
def strToLower (s : String) : String :=
  ⟨s.data.map Char.toLower⟩

/-- `String.prototype.trim`: strip leading and trailing whitespace. -/
def strTrim (s : String) : String :=
  ⟨((s.data.dropWhile Char.isWhitespace).reverse.dropWhile Char.isWhitespace).reverse⟩

/-- `fetchPokemon`'s argument: `@param {string|number} idOrName`. -/
inductive IdOrName where
  | str (s : String)
  | num (n : Nat)
deriving DecidableEq, Repr

/-- `String(idOrName).toLowerCase()` (script.js line 166). -/
def IdOrName.toKey : IdOrName → String
  | .str s => strToLower s
  | .num n => strToLower (toString n)

/-- The `try` block of `fetchPokemon` (script.js lines 173-190), entered on a
cache miss, after the `axios.get` for `key` has been issued (the get is the
first statement of the block and always runs): on a 2xx response construct a
`Pokemon` (which may throw) and cache it; a non-2xx status or a missing
response makes `await axios.get` throw. Returns the value of the block or the
error it throws, together with the cache as left by the block. -/
def fetchPokemonTry (w : World) (c : Cache) (key : String) :
    Except JsError (Pokemon × Cache) :=
  match w.pokemon key with
  | .success d =>
    match Pokemon.construct d with
    | .ok p => .ok (p, cacheInsert c key p)
    | .error e => .error e
  | .httpError s => .error (.httpStatus s)
  | .noResponse => .error .noResponse

/-- The `catch` block of `fetchPokemon` (script.js lines 191-208): each error
shape is only logged (`error.response`, with 404 warned specially;
`error.request`; setup error) and the function returns `null` in every
case. -/
def fetchPokemonCatch : JsError → Option Pokemon
  | .httpStatus _ => none
  | .noResponse => none
  | .typeError => none

/-- `fetchPokemon` (script.js lines 161-210): normalize the key, return the
cached object on a hit, otherwise issue the remote request and run the `try`
block, with the `catch` block turning every thrown error into `null`. -/
def fetchPokemon (w : World) (st : FetchState) (idOrName : IdOrName) :
    Option Pokemon × FetchState :=
  let key := idOrName.toKey
  match cacheLookup st.cache key with
  | some p => (some p, st)
  | none =>
    let st1 : FetchState := { st with calls := st.calls ++ [key] }
    match fetchPokemonTry w st1.cache key with
    | .ok (p, c) => (some p, { st1 with cache := c })
    | .error e => (fetchPokemonCatch e, st1)

/-- The same computation with the `catch` block removed: what the caller of
`fetchPokemon` would observe if thrown errors propagated. Used to state that
`fetchPokemon` never lets an error escape. -/
def fetchPokemonNoCatch (w : World) (st : FetchState) (idOrName : IdOrName) :
    Except JsError (Option Pokemon × FetchState) :=
  let key := idOrName.toKey
  match cacheLookup st.cache key with
  | some p => .ok (some p, st)
  | none =>
    let st1 : FetchState := { st with calls := st.calls ++ [key] }
    match fetchPokemonTry w st1.cache key with
    | .ok (p, c) => .ok (some p, { st1 with cache := c })
    | .error e => .error e

/-- `await Promise.all(names.map(n => fetchPokemon(n)))`: every element is
resolved (script.js lines 255-257 and 472-474); the shared cache is threaded
in list order (the single cooperative execution context of the page). The
result has one slot per input name, `none` where that resolution failed. -/
def batchFetch (w : World) (st : FetchState) (names : List String) :
    List (Option Pokemon) × FetchState :=
  match names with
  | [] => ([], st)
  | n :: ns =>
    let r := fetchPokemon w st (.str n)
    let rest := batchFetch w r.2 ns
    (r.1 :: rest.1, rest.2)

/-! ## Display surfaces and the UI functions -/

/-- What a display container holds: cleared (`innerHTML = ""`), a list of
rendered entity cards, or a literal message markup. -/
inductive SurfaceContent where
  | empty
  | cards (ps : List Pokemon)
  | message (s : String)
deriving DecidableEq

/-- The page state script.js mutates: the search input value, the suggestions
container and the main results container (each a content plus a visibility
flag for `style.display`, `true` = "flex", `false` = "none"), and the fetch
layer state. -/
structure AppState where
  searchValue : String
  suggContent : SurfaceContent
  suggVisible : Bool
  resContent : SurfaceContent
  resVisible : Bool
  fetch : FetchState
deriving DecidableEq

/-- The empty-search prompt markup of `searchPokemons` (script.js line 372). -/
def promptMsg : String := "Please type a Pokémon name or ID to search."

/-- The miss markup of `searchPokemons` (script.js line 388). -/
def notFoundMsg : String := "Pokémon not found!"

/-- The markup set by the `catch` of `fetchSuggestions` (script.js line 270). -/
def suggErrorMsg : String := "Error loading suggestions."

/-- The markup of the type-filter `catch` (script.js line 498). -/
def typeErrorMsg : String := "Error loading Pokémon for this type."

/-- The empty-category markup of the type filter (script.js line 486). -/
def noResultsMsg (t : String) : String :=
  "No Pokémon found for type: " ++ t ++ "."

/-- `displaySuggestions` (script.js lines 283-322): clear the container; with
no suggestions just hide it and return (the main results container is not
touched); otherwise show the cards and hide the main results container. -/
def displaySuggestions (suggestions : List Pokemon) (st : AppState) : AppState :=
  let st := { st with suggContent := .empty }
  if suggestions.length = 0 then
    { st with suggVisible := false }
  else
    { st with suggContent := .cards suggestions, suggVisible := true,
              resVisible := false }

/-- `displayPokemon` (script.js lines 331-359): replace the main container's
content with the cards, show it, and hide the suggestions container. -/
def displayPokemon (list : List Pokemon) (st : AppState) : AppState :=
  { st with resContent := .cards list, resVisible := true,
            suggVisible := false }

/-- Contiguous-substring test on character lists (`true` iff `pat` occurs as
a contiguous run inside the second list). -/
def isSubstrOfList (pat : List Char) : List Char → Bool
  | [] => pat.isEmpty
  | a :: l => List.isPrefixOf pat (a :: l) || isSubstrOfList pat l

/-- `String.prototype.includes` on lowered strings, as used by the suggestion
filter (script.js lines 246-248). -/
def nameMatches (entryName query : String) : Bool :=
  isSubstrOfList (strToLower query).data (strToLower entryName).data

/-- `fetchSuggestions` (script.js lines 219-273): empty query clears and
hides the suggestions container only; otherwise fetch the bounded name index
(`limit=TOTAL_POKEMON`, `offset=0`), filter it by case-insensitive substring,
resolve every match through `fetchPokemon`, keep the non-null results in
order, and hand them to `displaySuggestions`. If the index fetch itself
rejects, the `catch` puts an error message in the suggestions container and
shows it (without touching the main results container). -/
def fetchSuggestions (w : World) (query : String) (st : AppState) : AppState :=
  if query = "" then
    { st with suggContent := .empty, suggVisible := false }
  else
    match w.listing TOTAL_POKEMON 0 with
    | none =>
      { st with suggContent := .message suggErrorMsg, suggVisible := true }
    | some results =>
      let matchingNames := results.filter (fun p => nameMatches p.name query)
      let batch := batchFetch w st.fetch (matchingNames.map (·.name))
      let validSuggestions := batch.1.filterMap id
      displaySuggestions validSuggestions { st with fetch := batch.2 }

/-- `searchPokemons` (script.js lines 369-395). `arg = none` models a call
with no argument, where the default parameter reads the trimmed lowercased
input value. An empty query shows the prompt in the results container and
clears suggestions without any remote call; otherwise the single entity is
resolved and either displayed or replaced by the miss message, and the
suggestions container is cleared and hidden. -/
def searchPokemons (w : World) (arg : Option String) (st : AppState) : AppState :=
  let searchQuery := match arg with
    | some q => q
    | none => strToLower (strTrim st.searchValue)
  if searchQuery = "" then
    { st with resContent := .message promptMsg, resVisible := true,
              suggContent := .empty, suggVisible := false }
  else
    let r := fetchPokemon w st.fetch (.str searchQuery)
    let st := { st with fetch := r.2 }
    let st := match r.1 with
      | some p => displayPokemon [p] st
      | none => { st with resContent := .message notFoundMsg, resVisible := true }
    { st with suggContent := .empty, suggVisible := false }

/-- `.filter((name, index) => index < n)`, the index-bounded filter of the
type-filter handler (script.js line 465), with `i` the index of the head. -/
def filterIdxLt (n : Nat) : List String → Nat → List String
  | [], _ => []
  | a :: l, i => if i < n then a :: filterIdxLt n l (i + 1) else filterIdxLt n l (i + 1)

/-- The type-filter button click handler (script.js lines 433-501): clear the
input and suggestions, fetch the category membership, keep the member names
with index below `TOTAL_POKEMON`, resolve them all, drop nulls, and display
the result — or the no-results message when nothing survived; a rejected
membership fetch shows the error message in the results container. -/
def typeFilterClick (w : World) (type : String) (st : AppState) : AppState :=
  let st := { st with searchValue := "", suggContent := .empty,
                      suggVisible := false }
  match w.typeMembers type with
  | none =>
    { st with resContent := .message typeErrorMsg, resVisible := true }
  | some members =>
    let pokemonNamesForType := filterIdxLt TOTAL_POKEMON members 0
    let batch := batchFetch w st.fetch pokemonNamesForType
    let filteredPokemons := batch.1.filterMap id
    let st := { st with fetch := batch.2 }
    if filteredPokemons.length > 0 then
      displayPokemon filteredPokemons st
    else
      { st with resContent := .message (noResultsMsg type), resVisible := true }

/-- `resetSearch` (script.js lines 405-413): clear the input, clear and hide
both containers. The fetch state is not touched. -/
def resetSearch (st : AppState) : AppState :=
  { st with searchValue := "", resContent := .empty, resVisible := false,
            suggContent := .empty, suggVisible := false }

/-! ## User actions and the event-loop step -/

/-- The user-visible events script.js listens to. Each action is modelled as
running to completion (its async continuations included) before the next one
starts. `input v` is a change of the search field to `v` (the listener passes
the trimmed value to `fetchSuggestions`, lines 562-569); `submit` is the
search button or the Enter key; `selectSuggestion name` is a click on a
rendered suggestion card (lines 311-316); `typeFilter t` a category button;
`reset` the refresh button; `pageLoad` the DOMContentLoaded handler. -/
inductive Action where
  | input (v : String)
  | submit
  | selectSuggestion (name : String)
  | typeFilter (t : String)
  | reset
  | pageLoad
deriving DecidableEq

/-- One event dispatch. -/
def step (w : World) (st : AppState) : Action → AppState
  | .input v => fetchSuggestions w (strTrim v) { st with searchValue := v }
  | .submit => searchPokemons w none st
  | .selectSuggestion name =>
    let st := { st with searchValue := name }
    let st := searchPokemons w (some name) st
    { st with suggContent := .empty, suggVisible := false }
  | .typeFilter t => typeFilterClick w t st
  | .reset => resetSearch st
  | .pageLoad => { st with suggVisible := false, resVisible := false }

/-- Dispatch a sequence of events in order. -/
def run (w : World) (st : AppState) (acts : List Action) : AppState :=
  acts.foldl (step w) st

/-- The page state right after the DOMContentLoaded handler. -/
def initState : AppState :=
  { searchValue := "", suggContent := .empty, suggVisible := false,
    resContent := .empty, resVisible := false,
    fetch := { cache := [], calls := [] } }

instance : DecidableEq (Except JsError Pokemon) := fun a b =>
  match a, b with
  | .ok x, .ok y =>
    if h : x = y then .isTrue (by rw [h]) else .isFalse (fun hh => h (by injection hh))
  | .ok _, .error _ => .isFalse (fun hh => Except.noConfusion hh)
  | .error _, .ok _ => .isFalse (fun hh => Except.noConfusion hh)
  | .error x, .error y =>
    if h : x = y then .isTrue (by rw [h]) else .isFalse (fun hh => h (by injection hh))

/-! ## Coherence predicates for extensional statements -/

/-- A remote whose single-entity endpoint answers every key with a payload
bearing that key as name and a present "hp" stat (every lookup succeeds). -/
def worldResolvesOwnKey (w : World) : Prop :=
  ∀ k, ∃ d, w.pokemon k = .success d ∧ (hpStat d).isSome ∧ d.name = k

/-- Every cache slot stores an entity named by its own key. -/
def cacheSlotsOwnName (c : Cache) : Prop :=
  ∀ e ∈ c, (e.2).name = e.1

/-- The at-most-one-visible-surface property of the claim on DisplayState. -/
def surfacesExclusive (st : AppState) : Prop :=
  st.suggVisible = false ∨ st.resVisible = false

/-! ## Concrete test fixtures -/

/-- A well-formed payload for pikachu (the "hp" stat is present). -/
def pikachuData : PokemonData :=
  { id := 25, name := "pikachu", sprites := ⟨"sprite-pikachu"⟩,
    types := [⟨⟨"electric"⟩⟩], stats := [⟨⟨"hp"⟩, 35⟩] }

/-- The Pokemon the constructor builds from `pikachuData`. -/
def pikachuMon : Pokemon :=
  { id := 25, name := "pikachu", sprites := ⟨"sprite-pikachu"⟩,
    types := [⟨⟨"electric"⟩⟩], stats := [⟨⟨"hp"⟩, 35⟩], hp := 35 }

/-- A remote oracle knowing pikachu under both key forms and nothing else;
its paged listing is empty and its category endpoint always rejects. -/
def okWorld : World :=
  { pokemon := fun k =>
      if k = "pikachu" ∨ k = "25" then .success pikachuData else .httpError 404,
    listing := fun _ _ => some [],
    typeMembers := fun _ => none }

/-- A well-formed payload for charmander. -/
def charData : PokemonData :=
  { id := 4, name := "charmander", sprites := ⟨""⟩,
    types := [⟨⟨"fire"⟩⟩], stats := [⟨⟨"hp"⟩, 39⟩] }

/-- A remote whose single-entity endpoint always succeeds but whose paged
listing endpoint always rejects (the suggestion-index-fetch failure path). -/
def mixedWorld : World :=
  { pokemon := fun _ => .success charData,
    listing := fun _ _ => none,
    typeMembers := fun _ => some ["charmander"] }

/-- The six-entry suggestion index of the spec's "char" example: the three
"char" matches interspersed with non-matches. -/
def idx5 : List NamedRef :=
  [⟨"bulbasaur"⟩, ⟨"charmander"⟩, ⟨"squirtle"⟩, ⟨"charmeleon"⟩,
   ⟨"pidgey"⟩, ⟨"charizard"⟩]

/-- A remote that answers every entity key with a payload named by the key
and serves `idx5` as its listing. -/
def w5 : World :=
  { pokemon := fun k =>
      .success { id := 1, name := k, sprites := ⟨""⟩,
                 types := [⟨⟨"grass"⟩⟩], stats := [⟨⟨"hp"⟩, 10⟩] },
    listing := fun _ _ => some idx5,
    typeMembers := fun _ => none }

/-- A 200-entry category membership list. -/
def members200 : List String :=
  (List.range 200).map (fun i => "p" ++ toString i)

/-- A remote serving `members200` for category "fire". -/
def w6 : World :=
  { pokemon := fun _ => .httpError 404,
    listing := fun _ _ => some [],
    typeMembers := fun t => if t = "fire" then some members200 else none }

/-! ## Cache lemmas -/

theorem cacheLookup_cons (e : String × Pokemon) (c : Cache) (k : String) :
    cacheLookup (e :: c) k = if e.1 == k then some e.2 else cacheLookup c k := by
  cases h : e.1 == k <;> simp [cacheLookup, List.find?, h]

theorem cacheLookup_concat_self (c : Cache) (k : String) (p : Pokemon)
    (h : cacheLookup c k = none) :
    cacheLookup (cacheInsert c k p) k = some p := by
  induction c with
  | nil => simp [cacheInsert, cacheLookup, List.find?]
  | cons e c ih =>
    rw [cacheLookup_cons] at h
    rw [cacheInsert, List.cons_append, cacheLookup_cons]
    cases he : e.1 == k with
    | true => rw [he] at h; simp at h
    | false =>
      rw [he] at h
      simp only [Bool.false_eq_true, if_false] at h ⊢
      exact ih h

theorem cacheLookup_concat_of_ne (c : Cache) (k k' : String) (p' : Pokemon)
    (h : (k' == k) = false) :
    cacheLookup (cacheInsert c k' p') k = cacheLookup c k := by
  induction c with
  | nil => simp [cacheInsert, cacheLookup, List.find?, h]
  | cons e c ih =>
    rw [cacheInsert, List.cons_append, cacheLookup_cons, cacheLookup_cons]
    cases he : e.1 == k with
    | true => simp [he]
    | false => simp only [Bool.false_eq_true, if_false]; exact ih

theorem cacheLookup_concat_of_some (c : Cache) (k : String) (p : Pokemon)
    (k' : String) (p' : Pokemon) (h : cacheLookup c k = some p) :
    cacheLookup (cacheInsert c k' p') k = some p := by
  induction c with
  | nil => simp [cacheLookup, List.find?] at h
  | cons e c ih =>
    rw [cacheLookup_cons] at h
    rw [cacheInsert, List.cons_append, cacheLookup_cons]
    cases he : e.1 == k with
    | true => rw [he] at h; simpa using h
    | false =>
      rw [he] at h
      simp only [Bool.false_eq_true, if_false] at h ⊢
      exact ih h

/-! ## fetchPokemon unfolding helpers -/

theorem fetchPokemon_hit (w : World) (st : FetchState) (x : IdOrName)
    (p : Pokemon) (h : cacheLookup st.cache x.toKey = some p) :
    fetchPokemon w st x = (some p, st) := by
  simp [fetchPokemon, h]

theorem fetchPokemon_miss_success (w : World) (st : FetchState) (x : IdOrName)
    (d : PokemonData) (p : Pokemon)
    (hm : cacheLookup st.cache x.toKey = none)
    (hw : w.pokemon x.toKey = .success d)
    (hc : Pokemon.construct d = .ok p) :
    fetchPokemon w st x =
      (some p, { cache := cacheInsert st.cache x.toKey p,
                 calls := st.calls ++ [x.toKey] }) := by
  simp [fetchPokemon, hm, fetchPokemonTry, hw, hc]

theorem fetchPokemonCatch_eq_none (e : JsError) : fetchPokemonCatch e = none := by
  cases e <;> rfl

theorem fetchPokemon_miss_fail (w : World) (st : FetchState) (x : IdOrName)
    (e : JsError)
    (hm : cacheLookup st.cache x.toKey = none)
    (ht : fetchPokemonTry w st.cache x.toKey = .error e) :
    fetchPokemon w st x = (none, { st with calls := st.calls ++ [x.toKey] }) := by
  have hca := fetchPokemonCatch_eq_none e
  simp only [fetchPokemon, hm]
  rw [show ({ st with calls := st.calls ++ [x.toKey] } : FetchState).cache = st.cache from rfl,
      ht]
  simp [hca]

theorem fetchPokemon_none_inv (w : World) (st : FetchState) (x : IdOrName)
    (h : (fetchPokemon w st x).1 = none) :
    cacheLookup st.cache x.toKey = none ∧
    ∃ e, fetchPokemonTry w st.cache x.toKey = .error e := by
  cases hm : cacheLookup st.cache x.toKey with
  | some p => rw [fetchPokemon_hit w st x p hm] at h; simp at h
  | none =>
    refine ⟨rfl, ?_⟩
    cases ht : fetchPokemonTry w st.cache x.toKey with
    | error e => exact ⟨e, rfl⟩
    | ok r =>
      obtain ⟨p, c⟩ := r
      simp [fetchPokemon, hm, ht] at h

/-! ## Claims about the Resolver -/

/-- C2: for a key not yet cached whose remote lookup succeeds and whose
payload admits Entity construction, the first `fetchPokemon` call returns the
constructed Pokemon and logs exactly one remote call, and an immediately
repeated call with the same key returns the very same cached Pokemon with no
further remote call and no state change. -/
theorem resolve_memoized (w : World) (st : FetchState) (x : IdOrName)
    (d : PokemonData) (p : Pokemon)
    (hmiss : cacheLookup st.cache x.toKey = none)
    (hw : w.pokemon x.toKey = .success d)
    (hc : Pokemon.construct d = .ok p) :
    ∃ st1,
      fetchPokemon w st x = (some p, st1) ∧
      fetchPokemon w st1 x = (some p, st1) ∧
      st1.calls = st.calls ++ [x.toKey] := by
  refine ⟨_, fetchPokemon_miss_success w st x d p hmiss hw hc, ?_, rfl⟩
  exact fetchPokemon_hit w _ x p (cacheLookup_concat_self st.cache x.toKey p hmiss)

/-- C2 witness: resolving "pikachu" twice from the empty cache. -/
theorem resolve_memoized_witness :
    cacheLookup initState.fetch.cache (IdOrName.str "pikachu").toKey = none ∧
    okWorld.pokemon (IdOrName.str "pikachu").toKey = .success pikachuData ∧
    Pokemon.construct pikachuData = .ok pikachuMon ∧
    ∃ st1,
      fetchPokemon okWorld initState.fetch (.str "pikachu") = (some pikachuMon, st1) ∧
      fetchPokemon okWorld st1 (.str "pikachu") = (some pikachuMon, st1) ∧
      st1.calls = initState.fetch.calls ++ [(IdOrName.str "pikachu").toKey] :=
  ⟨by decide, by decide, by decide,
   resolve_memoized okWorld initState.fetch (.str "pikachu") pikachuData pikachuMon
     (by decide) (by decide) (by decide)⟩

/-- C3: whenever `fetchPokemon` fails (returns `null`) the cache is unchanged
(the failed key is not cached), the failed attempt issued one remote call,
and resolving the same key again issues a new remote call (and fails again
against the same deterministic remote). -/
theorem resolve_failure_never_cached (w : World) (st : FetchState) (x : IdOrName)
    (h : (fetchPokemon w st x).1 = none) :
    (fetchPokemon w st x).2.cache = st.cache ∧
    (fetchPokemon w st x).2.calls = st.calls ++ [x.toKey] ∧
    (fetchPokemon w (fetchPokemon w st x).2 x).1 = none ∧
    (fetchPokemon w (fetchPokemon w st x).2 x).2.calls
      = st.calls ++ [x.toKey] ++ [x.toKey] := by
  obtain ⟨hm, e, ht⟩ := fetchPokemon_none_inv w st x h
  have h1 := fetchPokemon_miss_fail w st x e hm ht
  have h2 := fetchPokemon_miss_fail w { st with calls := st.calls ++ [x.toKey] } x e hm ht
  rw [h1]
  exact ⟨rfl, rfl, by rw [h2], by rw [h2]⟩

/-- C3 witness: key "99999" is absent remotely (HTTP 404); the failure is not
cached and the retry issues a second remote call. -/
theorem resolve_failure_never_cached_witness :
    (fetchPokemon okWorld initState.fetch (.str "99999")).1 = none ∧
    (fetchPokemon okWorld initState.fetch (.str "99999")).2.cache
      = initState.fetch.cache ∧
    (fetchPokemon okWorld
        (fetchPokemon okWorld initState.fetch (.str "99999")).2 (.str "99999")).2.calls
      = initState.fetch.calls ++ [(IdOrName.str "99999").toKey] ++ [(IdOrName.str "99999").toKey] := by
  refine ⟨by decide, ?_, ?_⟩
  · exact (resolve_failure_never_cached okWorld initState.fetch (.str "99999") (by decide)).1
  · exact (resolve_failure_never_cached okWorld initState.fetch (.str "99999") (by decide)).2.2.2

/-- C8: resolving by the two distinct key strings "25" and "pikachu" (both
denoting the same underlying entity) populates two independent cache slots,
each holding the Pokemon constructed from its own remote response, with two
remote calls issued; when the two payloads coincide the two stored entities
are equal in content, but they are separately constructed and the slots are
never unified. -/
theorem resolve_distinct_key_forms (w : World) (st : FetchState)
    (d25 dpk : PokemonData) (p25 ppk : Pokemon)
    (h25m : cacheLookup st.cache "25" = none)
    (hpkm : cacheLookup st.cache "pikachu" = none)
    (hw25 : w.pokemon "25" = .success d25)
    (hwpk : w.pokemon "pikachu" = .success dpk)
    (hc25 : Pokemon.construct d25 = .ok p25)
    (hcpk : Pokemon.construct dpk = .ok ppk) :
    ∃ st2,
      (fetchPokemon w st (.str "25")).1 = some p25 ∧
      fetchPokemon w (fetchPokemon w st (.str "25")).2 (.str "pikachu")
        = (some ppk, st2) ∧
      cacheLookup st2.cache "25" = some p25 ∧
      cacheLookup st2.cache "pikachu" = some ppk ∧
      st2.calls = st.calls ++ ["25", "pikachu"] ∧
      (d25 = dpk → p25 = ppk) := by
  have hk25 : (IdOrName.str "25").toKey = "25" := by decide
  have hkpk : (IdOrName.str "pikachu").toKey = "pikachu" := by decide
  have h1 := fetchPokemon_miss_success w st (.str "25") d25 p25
    (by rw [hk25]; exact h25m) (by rw [hk25]; exact hw25) hc25
  rw [h1, hk25]
  set c1 : Cache := cacheInsert st.cache "25" p25 with hc1
  have hpkm1 : cacheLookup c1 "pikachu" = none := by
    rw [hc1, cacheLookup_concat_of_ne st.cache "pikachu" "25" p25 (by decide)]
    exact hpkm
  have h2 := fetchPokemon_miss_success w
    ⟨c1, st.calls ++ ["25"]⟩ (.str "pikachu") dpk ppk
    (by rw [hkpk]; exact hpkm1) (by rw [hkpk]; exact hwpk) hcpk
  refine ⟨_, rfl, by rw [h2, hkpk], ?_, ?_, by simp, ?_⟩
  · exact cacheLookup_concat_of_some c1 "25" p25 "pikachu" ppk
      (cacheLookup_concat_self st.cache "25" p25 h25m)
  · exact cacheLookup_concat_self c1 "pikachu" ppk hpkm1
  · intro hd; rw [hd] at hc25; rw [hc25] at hcpk; injection hcpk

/-- C8 witness: "25" and "pikachu" against a remote returning the same
payload for both. -/
theorem resolve_distinct_key_forms_witness :
    okWorld.pokemon "25" = .success pikachuData ∧
    okWorld.pokemon "pikachu" = .success pikachuData ∧
    ∃ st2,
      (fetchPokemon okWorld initState.fetch (.str "25")).1 = some pikachuMon ∧
      fetchPokemon okWorld
        (fetchPokemon okWorld initState.fetch (.str "25")).2 (.str "pikachu")
        = (some pikachuMon, st2) ∧
      cacheLookup st2.cache "25" = some pikachuMon ∧
      cacheLookup st2.cache "pikachu" = some pikachuMon ∧
      st2.calls = initState.fetch.calls ++ ["25", "pikachu"] := by
  refine ⟨by decide, by decide, ?_⟩
  obtain ⟨st2, a, b, c, d, e, f⟩ :=
    resolve_distinct_key_forms okWorld initState.fetch
      pikachuData pikachuData pikachuMon pikachuMon (by decide) (by decide)
      (by decide) (by decide) (by decide) (by decide)
  exact ⟨st2, a, b, c, d, e⟩

/-- C10: `fetchPokemon` is total at its public interface: for every input
(string or number), every cache state and every remote outcome — success, an
HTTP error status, no response, or a payload with no "hp" stat (which makes
the `Pokemon` constructor throw inside the `try` block) — either the body
succeeds and `fetchPokemon` returns that Pokemon, or the body throws some
`JsError` and `fetchPokemon` returns `null` with the cache untouched: no
error ever propagates to the caller. -/
theorem fetchPokemon_total (w : World) (st : FetchState) (x : IdOrName) :
    (∃ p st1, fetchPokemonNoCatch w st x = .ok (some p, st1) ∧
      fetchPokemon w st x = (some p, st1)) ∨
    (∃ e, fetchPokemonNoCatch w st x = .error e ∧
      fetchPokemon w st x = (none, { st with calls := st.calls ++ [x.toKey] }) ∧
      ({ st with calls := st.calls ++ [x.toKey] } : FetchState).cache = st.cache) := by
  cases hm : cacheLookup st.cache x.toKey with
  | some p =>
    left
    exact ⟨p, st, by simp [fetchPokemonNoCatch, hm], fetchPokemon_hit w st x p hm⟩
  | none =>
    cases ht : fetchPokemonTry w st.cache x.toKey with
    | ok r =>
      left
      refine ⟨r.1, { cache := r.2, calls := st.calls ++ [x.toKey] }, ?_, ?_⟩
      · simp [fetchPokemonNoCatch, hm, ht]
      · simp [fetchPokemon, hm, ht]
    | error e =>
      right
      exact ⟨e, by simp [fetchPokemonNoCatch, hm, ht],
        fetchPokemon_miss_fail w st x e hm ht, rfl⟩

/-! ## Batch resolution lemmas -/

theorem batchFetch_cons (w : World) (st : FetchState) (n : String) (ns : List String) :
    batchFetch w st (n :: ns)
      = ((fetchPokemon w st (.str n)).1
           :: (batchFetch w (fetchPokemon w st (.str n)).2 ns).1,
         (batchFetch w (fetchPokemon w st (.str n)).2 ns).2) := rfl

theorem batchFetch_length (w : World) (names : List String) :
    ∀ st : FetchState, ((batchFetch w st names).1).length = names.length := by
  induction names with
  | nil => intro st; rfl
  | cons n ns ih =>
    intro st
    rw [batchFetch_cons]
    simp [ih]

theorem fetchPokemon_miss_ok (w : World) (st : FetchState) (x : IdOrName)
    (p : Pokemon) (c : Cache)
    (hm : cacheLookup st.cache x.toKey = none)
    (ht : fetchPokemonTry w st.cache x.toKey = .ok (p, c)) :
    fetchPokemon w st x = (some p, { cache := c, calls := st.calls ++ [x.toKey] }) := by
  simp [fetchPokemon, hm, ht]

theorem fetchPokemon_calls (w : World) (st : FetchState) (x : IdOrName) :
    (fetchPokemon w st x).2.calls = st.calls ∨
    (fetchPokemon w st x).2.calls = st.calls ++ [x.toKey] := by
  cases hm : cacheLookup st.cache x.toKey with
  | some p => left; rw [fetchPokemon_hit w st x p hm]
  | none =>
    right
    cases ht : fetchPokemonTry w st.cache x.toKey with
    | ok r => rw [fetchPokemon_miss_ok w st x r.1 r.2 hm (by rw [ht])]
    | error e => rw [fetchPokemon_miss_fail w st x e hm ht]

theorem batchFetch_calls_from (w : World) (names : List String) :
    ∀ (st : FetchState) (k : String), k ∈ (batchFetch w st names).2.calls →
      k ∈ st.calls ∨ ∃ n ∈ names, k = (IdOrName.str n).toKey := by
  induction names with
  | nil => intro st k hk; left; exact hk
  | cons n ns ih =>
    intro st k hk
    rw [batchFetch_cons] at hk
    rcases ih _ k hk with h | ⟨m, hm, he⟩
    · rcases fetchPokemon_calls w st (.str n) with hc | hc
      · rw [hc] at h; left; exact h
      · rw [hc] at h
        rcases List.mem_append.mp h with h | h
        · left; exact h
        · right; exact ⟨n, List.mem_cons_self n ns, by simpa using h⟩
    · right; exact ⟨m, List.mem_cons_of_mem n hm, he⟩

/-- C4: the per-batch join settles everything and never fails fast: a batch
over any name list produces exactly one settled slot per launched resolution
(`length` is preserved, so no item is skipped), and a batch over `n :: ns`
always equals the head resolution of `n` — whatever its outcome, success or
`null` — followed by the untouched full batch of the remaining names, so an
individual failure neither aborts the batch nor removes later items; failed
slots carry `none` and are merely omitted when the call sites keep the
fulfilled ones. -/
theorem batch_settles_all (w : World) (st : FetchState) (names : List String)
    (n : String) (ns : List String) :
    ((batchFetch w st names).1).length = names.length ∧
    batchFetch w st (n :: ns)
      = ((fetchPokemon w st (.str n)).1
           :: (batchFetch w (fetchPokemon w st (.str n)).2 ns).1,
         (batchFetch w (fetchPokemon w st (.str n)).2 ns).2) ∧
    ((batchFetch w st (n :: ns)).1).tail.length = ns.length :=
  ⟨batchFetch_length w names st, batchFetch_cons w st n ns, by
    rw [batchFetch_cons]
    exact batchFetch_length w ns _⟩

/-! ## Extensional resolution lemmas -/

theorem cacheLookup_some_mem (c : Cache) (k : String) (p : Pokemon)
    (h : cacheLookup c k = some p) : (k, p) ∈ c := by
  unfold cacheLookup at h
  cases hf : List.find? (fun e => e.1 == k) c with
  | none => rw [hf] at h; simp at h
  | some e =>
    rw [hf] at h
    have hm := List.mem_of_find?_eq_some hf
    have hp := List.find?_some hf
    have hk : e.1 = k := by simpa using hp
    have hpe : e.2 = p := by simpa using h
    rw [← hk, ← hpe]
    exact hm

theorem construct_name (d : PokemonData) (p : Pokemon)
    (h : Pokemon.construct d = .ok p) : p.name = d.name := by
  unfold Pokemon.construct at h
  cases hh : hpStat d with
  | some s => rw [hh] at h; injection h with h; rw [← h]
  | none => rw [hh] at h; exact Except.noConfusion h

theorem construct_of_hp (d : PokemonData) (h : (hpStat d).isSome) :
    ∃ p, Pokemon.construct d = .ok p := by
  unfold Pokemon.construct
  cases hh : hpStat d with
  | some s => exact ⟨_, rfl⟩
  | none => rw [hh] at h; simp at h

theorem resolve_good (w : World) (st : FetchState) (n : String)
    (hw : worldResolvesOwnKey w) (hc : cacheSlotsOwnName st.cache)
    (hn : strToLower n = n) :
    ∃ p st2, fetchPokemon w st (.str n) = (some p, st2) ∧ p.name = n ∧
      cacheSlotsOwnName st2.cache := by
  have hkey : (IdOrName.str n).toKey = n := hn
  cases hm : cacheLookup st.cache (IdOrName.str n).toKey with
  | some p =>
    refine ⟨p, st, fetchPokemon_hit w st (.str n) p hm, ?_, hc⟩
    rw [hkey] at hm
    exact hc (n, p) (cacheLookup_some_mem st.cache n p hm)
  | none =>
    obtain ⟨d, hwd, hhp, hname⟩ := hw n
    obtain ⟨p, hp⟩ := construct_of_hp d hhp
    refine ⟨p, _, fetchPokemon_miss_success w st (.str n) d p hm (by rw [hkey]; exact hwd) hp, ?_, ?_⟩
    · rw [construct_name d p hp, hname]
    · intro e he
      rw [hkey] at he
      rcases List.mem_append.mp he with h | h
      · exact hc e h
      · have : e = (n, p) := by simpa using h
        rw [this]
        rw [construct_name d p hp, hname]

theorem batch_resolves_all (w : World) (names : List String)
    (hw : worldResolvesOwnKey w) :
    ∀ st : FetchState, cacheSlotsOwnName st.cache →
      (∀ n ∈ names, strToLower n = n) →
      (((batchFetch w st names).1.filterMap id).map Pokemon.name = names ∧
       cacheSlotsOwnName (batchFetch w st names).2.cache) := by
  induction names with
  | nil => intro st hc _; exact ⟨rfl, hc⟩
  | cons n ns ih =>
    intro st hc hlow
    obtain ⟨p, st2, hfp, hpn, hc2⟩ :=
      resolve_good w st n hw hc (hlow n (List.mem_cons_self n ns))
    have hrest := ih st2 hc2 (fun m hm => hlow m (List.mem_cons_of_mem n hm))
    rw [batchFetch_cons, hfp]
    constructor
    · simpa [hpn] using hrest.1
    · exact hrest.2

/-- C5: for a non-empty query against an index obtained from the bounded
listing (`limit = TOTAL_POKEMON`, `offset = 0`), `fetchSuggestions` keeps
exactly the index entries whose name contains the query as a case-insensitive
substring, resolves every one of them (one batch slot per match), and hands
the fulfilled resolutions to the display in the original index order: under a
remote that resolves every key, the displayed names are exactly the filtered
index names, unchanged and unreordered. -/
theorem suggestions_exact_matches (w : World) (st : AppState) (q : String)
    (idx : List NamedRef)
    (hq : q ≠ "")
    (hl : w.listing TOTAL_POKEMON 0 = some idx)
    (hlow : ∀ r ∈ idx, strToLower r.name = r.name)
    (hw : worldResolvesOwnKey w)
    (hc : cacheSlotsOwnName st.fetch.cache) :
    fetchSuggestions w q st
      = displaySuggestions
          ((batchFetch w st.fetch
              ((idx.filter (fun r => nameMatches r.name q)).map NamedRef.name)).1.filterMap id)
          { st with fetch :=
              (batchFetch w st.fetch
                ((idx.filter (fun r => nameMatches r.name q)).map NamedRef.name)).2 } ∧
    ((batchFetch w st.fetch
        ((idx.filter (fun r => nameMatches r.name q)).map NamedRef.name)).1.filterMap id).map Pokemon.name
      = (idx.filter (fun r => nameMatches r.name q)).map NamedRef.name ∧
    ((batchFetch w st.fetch
        ((idx.filter (fun r => nameMatches r.name q)).map NamedRef.name)).1).length
      = ((idx.filter (fun r => nameMatches r.name q)).map NamedRef.name).length := by
  refine ⟨?_, ?_, ?_⟩
  · simp only [fetchSuggestions, if_neg hq, hl]
  · refine (batch_resolves_all w _ hw st.fetch hc ?_).1
    intro n hn
    rcases List.mem_map.mp hn with ⟨r, hr, hrn⟩
    rw [← hrn]
    exact hlow r (List.mem_filter.mp hr).1
  · exact batchFetch_length w _ st.fetch

/-- C5 witness: query "char" against the six-entry index `idx5` keeps
charmander, charmeleon and charizard, in index order. -/
theorem suggestions_exact_matches_witness :
    ("char" : String) ≠ "" ∧
    w5.listing TOTAL_POKEMON 0 = some idx5 ∧
    (idx5.filter (fun r => nameMatches r.name "char")).map NamedRef.name
      = ["charmander", "charmeleon", "charizard"] ∧
    ((batchFetch w5 initState.fetch
        ((idx5.filter (fun r => nameMatches r.name "char")).map NamedRef.name)).1.filterMap id).map Pokemon.name
      = (idx5.filter (fun r => nameMatches r.name "char")).map NamedRef.name := by
  refine ⟨by decide, rfl, by decide, ?_⟩
  exact (suggestions_exact_matches w5 initState "char" idx5 (by decide) rfl
    (by decide) (fun k => ⟨_, rfl, rfl, rfl⟩) (fun e he => nomatch he)).2.1

/-! ## Truncation lemmas and the type filter -/

theorem filterIdxLt_of_ge (n : Nat) (l : List String) :
    ∀ i, n ≤ i → filterIdxLt n l i = [] := by
  induction l with
  | nil => intro i _; rfl
  | cons a l ih =>
    intro i h
    simp only [filterIdxLt, if_neg (by omega : ¬ i < n)]
    exact ih (i + 1) (by omega)

theorem filterIdxLt_eq_take (n : Nat) (l : List String) :
    ∀ i, filterIdxLt n l i = l.take (n - i) := by
  induction l with
  | nil => intro i; simp [filterIdxLt]
  | cons a l ih =>
    intro i
    by_cases h : i < n
    · simp only [filterIdxLt, if_pos h, ih (i + 1)]
      rw [show n - i = (n - (i + 1)) + 1 by omega, List.take_succ_cons]
    · simp only [filterIdxLt, if_neg h, filterIdxLt_of_ge n l (i + 1) (by omega)]
      rw [show n - i = 0 by omega, List.take_zero]

/-- C6: a type-filter click whose membership list has more than
`TOTAL_POKEMON` entries resolves exactly the first `TOTAL_POKEMON` member
names in list order (the index-bounded filter is a truncation), issues remote
requests only for keys of those retained names — members beyond the 151st are
never requested — displays the fulfilled resolutions in truncated-list order,
and when none survive shows the "no results for category" message inside the
results surface (not the error message, which is reserved for a rejected
membership fetch). -/
theorem type_filter_truncates (w : World) (st : AppState) (t : String)
    (members : List String)
    (hm : w.typeMembers t = some members)
    (hlen : TOTAL_POKEMON < members.length) :
    filterIdxLt TOTAL_POKEMON members 0 = members.take TOTAL_POKEMON ∧
    (filterIdxLt TOTAL_POKEMON members 0).length = TOTAL_POKEMON ∧
    ((batchFetch w st.fetch (filterIdxLt TOTAL_POKEMON members 0)).1).length
      = TOTAL_POKEMON ∧
    (∀ k ∈ (batchFetch w st.fetch (filterIdxLt TOTAL_POKEMON members 0)).2.calls,
      k ∈ st.fetch.calls ∨
      ∃ nm ∈ members.take TOTAL_POKEMON, k = (IdOrName.str nm).toKey) ∧
    (typeFilterClick w t st).fetch
      = (batchFetch w st.fetch (filterIdxLt TOTAL_POKEMON members 0)).2 ∧
    (typeFilterClick w t st).resVisible = true ∧
    (((batchFetch w st.fetch (filterIdxLt TOTAL_POKEMON members 0)).1.filterMap id ≠ [] ∧
      (typeFilterClick w t st).resContent
        = .cards ((batchFetch w st.fetch (filterIdxLt TOTAL_POKEMON members 0)).1.filterMap id)) ∨
     ((batchFetch w st.fetch (filterIdxLt TOTAL_POKEMON members 0)).1.filterMap id = [] ∧
      (typeFilterClick w t st).resContent = .message (noResultsMsg t))) := by
  have htake : filterIdxLt TOTAL_POKEMON members 0 = members.take TOTAL_POKEMON := by
    rw [filterIdxLt_eq_take, Nat.sub_zero]
  have hlentake : (filterIdxLt TOTAL_POKEMON members 0).length = TOTAL_POKEMON := by
    rw [htake, List.length_take]
    omega
  refine ⟨htake, hlentake, ?_, ?_, ?_⟩
  · rw [batchFetch_length]; exact hlentake
  · intro k hk
    rcases batchFetch_calls_from w _ st.fetch k hk with h | ⟨nm, hnm, he⟩
    · left; exact h
    · right; exact ⟨nm, htake ▸ hnm, he⟩
  · simp only [typeFilterClick, hm]
    by_cases hf :
        0 < ((batchFetch w st.fetch (filterIdxLt TOTAL_POKEMON members 0)).1.filterMap id).length
    · simp only [if_pos hf, displayPokemon]
      refine ⟨trivial, trivial, Or.inl ⟨?_, trivial⟩⟩
      intro hnil
      rw [hnil] at hf
      simp at hf
    · simp only [if_neg hf]
      refine ⟨trivial, trivial, Or.inr ⟨?_, trivial⟩⟩
      have : ((batchFetch w st.fetch (filterIdxLt TOTAL_POKEMON members 0)).1.filterMap id).length = 0 := by
        omega
      exact List.length_eq_zero.mp this

/-- C6 witness: category "fire" with a 200-entry membership list truncates to
the first 151 entries. -/
theorem type_filter_truncates_witness :
    w6.typeMembers "fire" = some members200 ∧
    TOTAL_POKEMON < members200.length ∧
    filterIdxLt TOTAL_POKEMON members200 0 = members200.take TOTAL_POKEMON ∧
    (filterIdxLt TOTAL_POKEMON members200 0).length = TOTAL_POKEMON := by
  have hlen : TOTAL_POKEMON < members200.length := by
    rw [show members200.length = 200 by simp [members200]]
    decide
  have h := type_filter_truncates w6 initState "fire" members200 rfl hlen
  exact ⟨rfl, hlen, h.1, h.2.1⟩

/-! ## Display-surface lemmas -/

theorem displaySuggestions_exclusive (ps : List Pokemon) (st : AppState) :
    (displaySuggestions ps st).suggVisible = false ∨
    (displaySuggestions ps st).resVisible = false := by
  unfold displaySuggestions
  dsimp only
  split
  · left; rfl
  · right; rfl

theorem searchPokemons_sugg_hidden (w : World) (arg : Option String) (st : AppState) :
    (searchPokemons w arg st).suggVisible = false := by
  unfold searchPokemons
  dsimp only
  split
  · rfl
  · rfl

theorem typeFilterClick_sugg_hidden (w : World) (t : String) (st : AppState) :
    (typeFilterClick w t st).suggVisible = false := by
  unfold typeFilterClick
  cases hm : w.typeMembers t with
  | none => simp only [hm]
  | some members =>
    simp only [hm]
    split
    · rfl
    · rfl

theorem fetchSuggestions_exclusive (w : World) (q : String) (st : AppState)
    (hl : w.listing TOTAL_POKEMON 0 ≠ none) :
    (fetchSuggestions w q st).suggVisible = false ∨
    (fetchSuggestions w q st).resVisible = false := by
  unfold fetchSuggestions
  by_cases hq : q = ""
  · simp only [if_pos hq]
    exact Or.inl trivial
  · simp only [if_neg hq]
    cases hli : w.listing TOTAL_POKEMON 0 with
    | none => exact absurd hli hl
    | some results =>
      simp only [hli]
      exact displaySuggestions_exclusive _ _

theorem step_exclusive (w : World) (hl : w.listing TOTAL_POKEMON 0 ≠ none)
    (st : AppState) (a : Action) :
    (step w st a).suggVisible = false ∨ (step w st a).resVisible = false := by
  cases a with
  | input v => exact fetchSuggestions_exclusive w (strTrim v) _ hl
  | submit => left; exact searchPokemons_sugg_hidden w none st
  | selectSuggestion name => left; rfl
  | typeFilter t => left; exact typeFilterClick_sugg_hidden w t st
  | reset => left; rfl
  | pageLoad => left; rfl

/-! ## Claims about the DisplayCoordinator -/

/-- C1 counterexample: after a successful type filter (results visible), a
keystroke whose bounded-index fetch rejects puts the error message into the
suggestions surface and shows it without hiding the results surface: both
non-Idle surfaces are visible at once, refuting the claim on the
suggestion-index-fetch failure path it covers. -/
theorem surfaces_both_visible_cex :
    (run mixedWorld initState [.typeFilter "fire", .input "a"]).suggVisible = true ∧
    (run mixedWorld initState [.typeFilter "fire", .input "a"]).resVisible = true := by
  decide

/-- C1 (amended): for every remote whose bounded-index listing does not
reject, every sequence of user actions from page load leaves at most one
surface visible — every operation that shows the suggestions surface with
actual suggestions hides the results surface, and every operation that shows
the results surface hides the suggestions surface; only the
suggestion-index-fetch failure path can exhibit both surfaces at once. -/
theorem surfaces_exclusive_of_listing_ok (w : World)
    (hl : w.listing TOTAL_POKEMON 0 ≠ none) (acts : List Action) :
    surfacesExclusive (run w initState acts) := by
  induction acts using List.reverseRecOn with
  | nil => exact Or.inl rfl
  | append_singleton acts a ih =>
    unfold run
    rw [List.foldl_append]
    simp only [List.foldl_cons, List.foldl_nil]
    exact step_exclusive w hl _ a

/-- C1 witness: a concrete three-action trace under a remote with a working
listing endpoint. -/
theorem surfaces_exclusive_of_listing_ok_witness :
    (okWorld.listing TOTAL_POKEMON 0 ≠ none) ∧
    surfacesExclusive
      (run okWorld initState [.typeFilter "fire", .input "a", .reset]) :=
  ⟨by decide,
   surfaces_exclusive_of_listing_ok okWorld (by decide)
     [.typeFilter "fire", .input "a", .reset]⟩

/-- C7 counterexample: with the results surface visible from an earlier
action, an empty suggestion result hides only the suggestions surface — the
results surface stays visible, so the display does not become Idle as the
claim states. -/
theorem suggestions_empty_leaves_results_cex :
    (run okWorld initState [.typeFilter "fire", .input "x"]).resVisible = true ∧
    (run okWorld initState [.typeFilter "fire", .input "x"]).suggVisible = false := by
  decide

/-- C7 (amended): the empty suggestion query returns immediately with zero
remote calls and an untouched fetch state, clearing and hiding the
suggestions surface; and whenever the suggestion engine yields an empty list
the suggestions surface is cleared and hidden while the results surface — its
content and its visibility — is left exactly as it was (so the state is Idle
only if the results surface was already hidden). -/
theorem suggestions_empty_hides_only_suggestions (w : World) (st : AppState) :
    fetchSuggestions w "" st = { st with suggContent := .empty, suggVisible := false } ∧
    (fetchSuggestions w "" st).fetch.calls = st.fetch.calls ∧
    (fetchSuggestions w "" st).fetch.cache = st.fetch.cache ∧
    (displaySuggestions [] st).suggVisible = false ∧
    (displaySuggestions [] st).suggContent = .empty ∧
    (displaySuggestions [] st).resVisible = st.resVisible ∧
    (displaySuggestions [] st).resContent = st.resContent :=
  ⟨rfl, rfl, rfl, rfl, rfl, rfl, rfl⟩

/-- C9: the reset command clears the search input, clears and hides both
display surfaces (the Idle display state), and leaves the Resolver cache
untouched: every slot lookup answers after the reset exactly as it did
before, and the remote-call log is unchanged. -/
theorem reset_clears_ui_keeps_cache (w : World) (st : AppState) :
    (step w st .reset).searchValue = "" ∧
    (step w st .reset).suggVisible = false ∧
    (step w st .reset).resVisible = false ∧
    (step w st .reset).suggContent = .empty ∧
    (step w st .reset).resContent = .empty ∧
    (step w st .reset).fetch.cache = st.fetch.cache ∧
    (step w st .reset).fetch.calls = st.fetch.calls ∧
    ∀ k, cacheLookup (step w st .reset).fetch.cache k = cacheLookup st.fetch.cache k :=
  ⟨rfl, rfl, rfl, rfl, rfl, rfl, rfl, fun _ => rfl⟩

end PokemonApp
